import Mathlib

/-!
Verification of the jiwa command-line client (src/cmd/jiwa/main.go).

The Go program is shallowly embedded.  Strings are Lean strings, byte
buffers are lists of characters, and the collaborator boundaries are
explicit inputs: the editor buffer is a line sequence, stdin and files
are character contents wrapped in Except for read failures, and the
outcome of each issue-tracker API operation is given by an oracle
record.  A run of main is summarised as a RunResult: the API calls
performed, the strings printed to standard output (one entry per print
statement), and the process exit code.
-/

/-- Drop a final carriage return from a line token, as the dropCR step of
Go bufio.ScanLines does. -/
def dropCR (l : List Char) : List Char :=
  if l.getLast? = some '\r' then l.dropLast else l

/-- Tokenizer of Go bufio.Scanner with the default ScanLines split
function: tokens are the maximal newline-free chunks, each with a final
carriage return removed; input ending without a newline yields a final
token only when nonempty.  The accumulator holds the current partial
line reversed. -/
def scanLinesAux : List Char → List Char → List (List Char)
  | [], acc => if acc.isEmpty then [] else [dropCR acc.reverse]
  | c :: cs, acc =>
    if c = '\n' then dropCR acc.reverse :: scanLinesAux cs []
    else scanLinesAux cs (c :: acc)

/-- The token sequence a bufio line scanner produces from a buffer. -/
def scanLines (l : List Char) : List (List Char) := scanLinesAux l []

/-- readStdin (main.go lines 353-370): scan stdin line by line and
rebuild the buffer with every token followed by a single newline byte. -/
def readStdin (input : List Char) : List Char :=
  ((scanLines input).map (fun t => t ++ ['\n'])).flatten

/-- readStdin including its error path: the only error is a failing
underlying read, wrapped with the message the code uses (main.go line 366). -/
def readStdinR (stdin : Except String (List Char)) : Except String (List Char) :=
  match stdin with
  | .error e => .error ("failed to read stdin: " ++ e)
  | .ok content => .ok (readStdin content)

/-- The lines a bufio scanner over a byte buffer hands to the
summary/description parser. -/
def linesOfChars (l : List Char) : List String :=
  (scanLines l).map String.mk

/-- Go strings.TrimPrefix s pre: remove pre from the front of s when it
is present, otherwise return s unchanged. -/
def trimPre (s pre : String) : String :=
  if pre.data.isPrefixOf s.data then String.mk (s.data.drop pre.data.length) else s

/-- StripBaseURL (main.go lines 372-374).  The code passes the full url
as the pattern to be removed and the base browse URL as the string being
trimmed, exactly as written: strings.TrimPrefix(baseURL+"/browse/", url). -/
def StripBaseURL (url baseURL : String) : String :=
  trimPre (baseURL ++ "/browse/") url

/-- Minimal model of fmt.Sprintf for string verbs: a percent-s in the
format consumes the next argument, every other character is copied. -/
def sprintfS : List Char → List String → List Char
  | [], _ => []
  | '%' :: 's' :: rest, arg :: args => arg.data ++ sprintfS rest args
  | c :: rest, args => c :: sprintfS rest args

/-- ConstructIssueURL (main.go lines 376-378):
fmt.Sprintf("%s/browse/%s", baseURL, issueKey). -/
def ConstructIssueURL (issueKey baseURL : String) : String :=
  String.mk (sprintfS "%s/browse/%s".data [baseURL, issueKey])

/-- Loop body of BuildSummaryAndDescriptionFromScanner: while the title
is still empty the scanned line becomes the title, afterwards every line
is appended to the description followed by a newline. -/
def buildAux : List String → String → String → String × String
  | [], title, desc => (title, desc)
  | l :: ls, title, desc =>
    if title = "" then buildAux ls l desc
    else buildAux ls title (desc ++ l ++ "\n")

/-- BuildSummaryAndDescriptionFromScanner (main.go lines 329-342) over
the token sequence the scanner produced.  Once every token was produced
scanner.Err() is nil, so the result is always ok: the function itself
performs no emptiness check. -/
def BuildSummaryAndDescriptionFromScanner (lines : List String) :
    Except String (String × String) :=
  Except.ok (buildAux lines "" "")

/-- The part of CreateIssueSummaryDescription (main.go lines 310-327)
that runs on the lines of the editor buffer: parse them and reject an
empty title. -/
def CreateIssueSummaryDescriptionFromLines (lines : List String) :
    Except String (String × String) :=
  match BuildSummaryAndDescriptionFromScanner lines with
  | .error e => .error ("scanner failure: " ++ e)
  | .ok td =>
    if td.1 = "" then .error "the summary line needs to be filled at least"
    else .ok td

/-- CreateIssueSummaryDescription (main.go lines 310-327).  Modelled
from the spec: editor.SetupTmpFileWithEditor lives in internal/editor,
outside the sources given here; per the spec it stages the prefill,
runs the editor, and exposes the resulting buffer as a line sequence,
so that outcome (failure, or the buffer lines) is taken as an input. -/
def CreateIssueSummaryDescription (editorRes : Except String (List String)) :
    Except String (String × String) :=
  match editorRes with
  | .error e => .error ("failed to set up scanner on tmpFile: " ++ e)
  | .ok lines => CreateIssueSummaryDescriptionFromLines lines

/-- Spec-side join used to state the parser theorems: every line
followed by one newline. -/
def joinNL : List String → String
  | [] => ""
  | l :: ls => l ++ "\n" ++ joinNL ls

/-- Configuration record (main.go lines 38-45). -/
structure Config where
  baseURL : String
  apiVersion : String
  endpointPrefix : String
  username : String
  password : String
  defaultProject : String

/-- Environment-variable overrides applied by init (main.go lines
70-77): a set JIWA_USERNAME or JIWA_PASSWORD replaces the value read
from the configuration file. -/
def applyEnvOverrides (c : Config) (envUser envPass : Option String) : Config :=
  let c1 := match envUser with
    | some u => { c with username := u }
    | none => c
  match envPass with
  | some p => { c1 with password := p }
  | none => c1

/-- An issue as returned by the search endpoint, with the fields the
list subcommand prints. -/
structure SearchIssue where
  key : String
  summary : String

/-- One API operation performed by the client.  Modelled from the spec:
the jiwa.Client methods live in internal/jiwa, outside the sources given
here; per the spec they are a thin HTTP wrapper, so a run records which
operation was invoked with which arguments. -/
inductive APICall where
  | createIssue (project summary description : String) (labels : List String) (issueType : String)
  | updateIssue (key summary description : String)
  | getIssue (key : String)
  | search (jql : String)
  | assignIssue (key user : String)
  | labelIssue (key : String) (labels : List String)

/-- Oracle for the outcome of each API operation: the key of the created
issue, the summary and description of the fetched issue, the search results,
and success or failure of the mutations. -/
structure Api where
  createRes : Except String String
  getRes : Except String (String × String)
  updateRes : Except String Unit
  searchRes : Except String (List SearchIssue)
  assignRes : Except String Unit
  labelRes : Except String Unit

/-- The process environment of one invocation: whether stdin is piped
(the stat mode check on main.go line 247), the stdin bytes, the editor
buffer outcome, and the contents of the file named by the -in flag. -/
structure Env where
  stdinPiped : Bool
  stdin : Except String (List Char)
  editor : Except String (List String)
  file : Except String (List Char)

/-- Observable result of one invocation: API calls made in order, the
strings printed to standard output (one entry per print), and the exit
code. -/
structure RunResult where
  calls : List APICall
  output : List String
  exitCode : Nat

/-- Classification of one argument by the Go flag parser: a positional
argument stops parsing, a bare double dash terminates it, bad syntax is
an error, otherwise the flag name with everything after the dashes. -/
inductive FlagTok where
  | stop
  | term
  | bad
  | name (n : List Char)

/-- How Go flag.Parse classifies a single argument. -/
def classifyFlagArg (arg : String) : FlagTok :=
  match arg.data with
  | '-' :: '-' :: [] => .term
  | '-' :: '-' :: c :: cs => if c = '-' ∨ c = '=' then .bad else .name (c :: cs)
  | '-' :: c :: cs => if c = '-' ∨ c = '=' then .bad else .name (c :: cs)
  | _ => .stop

/-- Split a list at the first occurrence of a character: the part before
it, and the part after it when it occurs. -/
def takeUntilEq (c : Char) : List Char → List Char × Option (List Char)
  | [] => ([], none)
  | x :: xs =>
    if x = c then ([], some xs)
    else
      let r := takeUntilEq c xs
      (x :: r.1, r.2)

/-- Go flag.FlagSet.Parse over string-valued flags: each known flag may
be written dash-name-equals-value or dash-name with the value as the
next argument; an unknown flag or a missing value is an error; parsing
stops at the first positional argument.  Later assignments are consed on
and therefore win on lookup. -/
def parseFlags (known : List String) : List String → List (String × String) →
    Except String (List (String × String) × List String)
  | [], acc => .ok (acc, [])
  | arg :: rest, acc =>
    match classifyFlagArg arg with
    | .stop => .ok (acc, arg :: rest)
    | .term => .ok (acc, rest)
    | .bad => .error ("bad flag syntax: " ++ arg)
    | .name n =>
      let nv := takeUntilEq '=' n
      let fname : String := String.mk nv.1
      if known.contains fname then
        match nv.2 with
        | some v => parseFlags known rest ((fname, String.mk v) :: acc)
        | none =>
          match rest with
          | v :: rest2 => parseFlags known rest2 ((fname, v) :: acc)
          | [] => .error ("flag needs an argument: -" ++ fname)
      else .error ("flag provided but not defined: -" ++ fname)

/-- Value of a parsed flag, falling back to its declared default. -/
def flagVal (fs : List (String × String)) (name dflt : String) : String :=
  match fs.lookup name with
  | some v => v
  | none => dflt

/-- Prepend already-printed output to the result of the rest of a run. -/
def withOutputPre (pre : List String) (r : RunResult) : RunResult :=
  { r with output := pre ++ r.output }

/-- The CreateIssue call and the prints that follow it (main.go lines
166-178): labels are nil and the type is Task. -/
def createCall (cfg : Config) (api : Api) (project summary description : String) : RunResult :=
  match api.createRes with
  | .error e =>
    { calls := [APICall.createIssue project summary description [] "Task"],
      output := ["failed to create issue: " ++ e], exitCode := 1 }
  | .ok key =>
    { calls := [APICall.createIssue project summary description [] "Task"],
      output := [ConstructIssueURL key cfg.baseURL], exitCode := 0 }

/-- The create subcommand (main.go lines 109-178). -/
def runCreate (cfg : Config) (env : Env) (api : Api) (argsRest : List String) : RunResult :=
  match parseFlags ["project", "in"] argsRest [] with
  | .error _ => { calls := [], output := ["Usage: jiwa create [-project]"], exitCode := 1 }
  | .ok (fs, _) =>
    let projectFlag := flagVal fs "project" ""
    let inFlag := flagVal fs "in" ""
    if projectFlag = "" ∧ cfg.defaultProject = "" then
      { calls := [], output := ["Usage: jiwa create [-project]"], exitCode := 1 }
    else
      let project := if projectFlag = "" then cfg.defaultProject else projectFlag
      if inFlag = "" then
        match CreateIssueSummaryDescription env.editor with
        | .error e =>
          { calls := [], output := ["failed to get summary and description: " ++ e], exitCode := 1 }
        | .ok sd => createCall cfg api project sd.1 sd.2
      else if inFlag = "-" then
        match readStdinR env.stdin with
        | .error e => { calls := [], output := [e], exitCode := 1 }
        | .ok inBytes =>
          match BuildSummaryAndDescriptionFromScanner (linesOfChars inBytes) with
          | .error e =>
            { calls := [],
              output := [String.mk inBytes, "failed to get summary and description: " ++ e],
              exitCode := 1 }
          | .ok sd =>
            withOutputPre [String.mk inBytes] (createCall cfg api project sd.1 sd.2)
      else
        match env.file with
        | .error e =>
          { calls := [], output := ["failed to read file contents: " ++ e], exitCode := 1 }
        | .ok fBytes =>
          match BuildSummaryAndDescriptionFromScanner (linesOfChars fBytes) with
          | .error e =>
            { calls := [], output := ["failed to get summary and description: " ++ e], exitCode := 1 }
          | .ok sd => createCall cfg api project sd.1 sd.2

/-- The edit subcommand (main.go lines 179-205); GetIssueIntoEditor is
inlined: GetIssue, then the editor round trip, then UpdateIssue. -/
def runEdit (cfg : Config) (env : Env) (api : Api) (argsRest : List String) : RunResult :=
  match argsRest with
  | [issueID] =>
    match api.getRes with
    | .error e =>
      { calls := [APICall.getIssue issueID],
        output := ["failed to get summary and description: " ++ e], exitCode := 1 }
    | .ok _ =>
      match CreateIssueSummaryDescription env.editor with
      | .error e =>
        { calls := [APICall.getIssue issueID],
          output := ["failed to get summary and description: " ++ e], exitCode := 1 }
      | .ok sd =>
        match api.updateRes with
        | .error e =>
          { calls := [APICall.getIssue issueID, APICall.updateIssue issueID sd.1 sd.2],
            output := ["summary: " ++ sd.1 ++ " | description: " ++ sd.2,
                       "failed to update issue: " ++ e],
            exitCode := 1 }
        | .ok _ =>
          { calls := [APICall.getIssue issueID, APICall.updateIssue issueID sd.1 sd.2],
            output := ["summary: " ++ sd.1 ++ " | description: " ++ sd.2,
                       ConstructIssueURL issueID cfg.baseURL],
            exitCode := 0 }
  | _ => { calls := [], output := ["Usage: jiwa edit <issue ID>"], exitCode := 1 }

/-- The ls subcommand (main.go lines 208-242).  The base URL of the client is
cfg.BaseURL plus cfg.EndpointPrefix (main.go line 101), and that is what
the printed table uses; tab-separated cells stand for the tabwriter
columns. -/
def runLs (cfg : Config) (api : Api) (argsRest : List String) : RunResult :=
  match parseFlags ["user", "status", "project"] argsRest [] with
  | .error _ => { calls := [], output := ["Usage: jiwa ls [-user|-status]"], exitCode := 1 }
  | .ok (fs, _) =>
    let userFlag := flagVal fs "user" ""
    let statusFlag := flagVal fs "status" "to do"
    let projectFlag := flagVal fs "project" ""
    let user :=
      if userFlag = "empty" then "AND assignee is EMPTY"
      else if userFlag = "" then ""
      else "AND assignee= " ++ userFlag
    let project := if projectFlag = "" then cfg.defaultProject else projectFlag
    let jql := "project=" ++ project ++ " AND status=\"" ++ statusFlag ++ "\" " ++ user
    match api.searchRes with
    | .error e =>
      { calls := [APICall.search jql], output := ["could not list issues: " ++ e], exitCode := 1 }
    | .ok issues =>
      { calls := [APICall.search jql],
        output := "ID\tSummary\tURL" ::
          issues.map (fun i =>
            i.key ++ "\t" ++ i.summary ++ "\t" ++
              cfg.baseURL ++ cfg.endpointPrefix ++ "/browse/" ++ i.key),
        exitCode := 0 }

/-- The AssignIssue call and the prints around it (main.go lines 270-276). -/
def assignCall (cfg : Config) (api : Api) (ticketID user : String) : RunResult :=
  match api.assignRes with
  | .error e =>
    { calls := [APICall.assignIssue ticketID user],
      output := ["failed to assign issue to " ++ ticketID ++ ": " ++ e], exitCode := 1 }
  | .ok _ =>
    { calls := [APICall.assignIssue ticketID user],
      output := [ConstructIssueURL ticketID cfg.baseURL], exitCode := 0 }

/-- The reassign subcommand (main.go lines 245-276); it inspects the
full argument vector. -/
def runReassign (cfg : Config) (env : Env) (api : Api) (args : List String) : RunResult :=
  if env.stdinPiped then
    match args with
    | [_, _, user] =>
      match readStdinR env.stdin with
      | .error e => { calls := [], output := [e], exitCode := 1 }
      | .ok inBytes =>
        assignCall cfg api (StripBaseURL (String.mk inBytes) cfg.baseURL) user
    | _ => { calls := [], output := ["Usage: jiwa reassign <username>"], exitCode := 1 }
  else
    match args with
    | [_, _, ticketID, user] => assignCall cfg api ticketID user
    | _ => { calls := [], output := ["Usage: jiwa reassign <issue ID> <username>"], exitCode := 1 }

/-- The LabelIssue call and the prints around it (main.go lines
299-306): the labels passed are os.Args from index 2 on. -/
def labelCall (cfg : Config) (api : Api) (ticketID : String) (labels : List String) : RunResult :=
  match api.labelRes with
  | .error e =>
    { calls := [APICall.labelIssue ticketID labels],
      output := ["failed to label issue: " ++ e], exitCode := 1 }
  | .ok _ =>
    { calls := [APICall.labelIssue ticketID labels],
      output := [ticketID, ConstructIssueURL ticketID cfg.baseURL], exitCode := 0 }

/-- The label subcommand (main.go lines 277-306).  In the piped branch
the too-few-arguments check prints its usage line but, unlike every
sibling branch, does not exit, so execution continues. -/
def runLabel (cfg : Config) (env : Env) (api : Api) (args : List String) : RunResult :=
  if env.stdinPiped then
    let usageOut : List String :=
      if args.length < 3 then ["Usage: jiwa label <label> <label> ..."] else []
    match readStdinR env.stdin with
    | .error e => withOutputPre usageOut { calls := [], output := [e], exitCode := 1 }
    | .ok inBytes =>
      withOutputPre usageOut
        (labelCall cfg api (StripBaseURL (String.mk inBytes) cfg.baseURL) (args.drop 2))
  else
    match args with
    | _ :: _ :: ticketID :: _ :: _ => labelCall cfg api ticketID (args.drop 2)
    | _ => { calls := [], output := ["Usage: jiwa label <issue ID> <label> <label>..."], exitCode := 1 }

/-- The dispatcher: the final argument-count check of init (main.go lines
87-90) followed by the switch in main (main.go lines 108-307).  Go
switch cases do not fall through, so the empty list, move and mv cases
do nothing; an unrecognised subcommand also does nothing and the process
ends with exit code 0. -/
def runMain (cfg : Config) (env : Env) (api : Api) (args : List String) : RunResult :=
  match args with
  | _ :: cmd :: argsRest =>
    if cmd = "create" then runCreate cfg env api argsRest
    else if cmd = "edit" then runEdit cfg env api argsRest
    else if cmd = "list" then { calls := [], output := [], exitCode := 0 }
    else if cmd = "ls" then runLs cfg api argsRest
    else if cmd = "move" then { calls := [], output := [], exitCode := 0 }
    else if cmd = "mv" then { calls := [], output := [], exitCode := 0 }
    else if cmd = "reassign" then runReassign cfg env api args
    else if cmd = "label" then runLabel cfg env api args
    else { calls := [], output := [], exitCode := 0 }
  | _ =>
    { calls := [], output := ["Usage: jiwa \x7bcreate|edit|list|move|reassign\x7d"], exitCode := 1 }

/-- The issue key an API call creates or affects: for CreateIssue it is
the key the server returned, for the other operations the key argument;
a search affects no single issue. -/
def keyOfCall (api : Api) : APICall → Option String
  | .createIssue _ _ _ _ _ =>
    match api.createRes with
    | .ok key => some key
    | .error _ => none
  | .updateIssue key _ _ => some key
  | .getIssue key => some key
  | .search _ => none
  | .assignIssue key _ => some key
  | .labelIssue key _ => some key

/-- Spec-side decomposition of a raw input buffer into lines: each line
followed by its terminator, a lone newline or a carriage return and
newline pair, and a final unterminated chunk.  Used to state what
readStdin normalizes. -/
def mkInputLines : List (List Char × Bool) → List Char → List Char
  | [], fin => fin
  | (l, crlf) :: ps, fin => l ++ (if crlf then ['\r', '\n'] else ['\n']) ++ mkInputLines ps fin

/-- Sample configuration used by witness instantiations. -/
def sampleCfg : Config :=
  { baseURL := "https://example.com", apiVersion := "2", endpointPrefix := "",
    username := "u", password := "p", defaultProject := "PROJ" }

/-- Sample terminal environment used by witness instantiations: stdin is
a terminal and the editor buffer holds a title line and a body line. -/
def sampleEnv : Env :=
  { stdinPiped := false, stdin := .ok [], editor := .ok ["title", "body"], file := .ok [] }

/-- Sample all-successful API oracle used by witness instantiations. -/
def sampleApi : Api :=
  { createRes := .ok "AB-1", getRes := .ok ("s", "d"), updateRes := .ok (),
    searchRes := .ok [], assignRes := .ok (), labelRes := .ok () }

/-! ## Helper lemmas on strings and lists -/

theorem strAppendEmpty (s : String) : s ++ "" = s := by
  cases s with
  | mk d => exact congrArg String.mk (List.append_nil d)

theorem strEmptyAppend (s : String) : "" ++ s = s := by
  cases s with
  | mk d => exact congrArg String.mk (List.nil_append d)

theorem strAppendAssoc (a b c : String) : a ++ b ++ c = a ++ (b ++ c) := by
  cases a with
  | mk da =>
    cases b with
    | mk db =>
      cases c with
      | mk dc => exact congrArg String.mk (List.append_assoc da db dc)

theorem dropCR_concat (l : List Char) : dropCR (l ++ ['\r']) = l := by
  simp [dropCR]

theorem dropCR_of_ne (l : List Char) (h : l.getLast? ≠ some '\r') : dropCR l = l := by
  simp [dropCR, h]

theorem scanLinesAux_chunk (l : List Char) (h : '\n' ∉ l) (rest acc : List Char) :
    scanLinesAux (l ++ rest) acc = scanLinesAux rest (l.reverse ++ acc) := by
  induction l generalizing acc with
  | nil => simp
  | cons c cs ih =>
    have hc : ¬(c = '\n') := fun hc => h (hc ▸ List.mem_cons_self c cs)
    have hcs : '\n' ∉ cs := fun hm => h (List.mem_cons_of_mem c hm)
    show (if c = '\n' then dropCR acc.reverse :: scanLinesAux (cs ++ rest) []
          else scanLinesAux (cs ++ rest) (c :: acc)) = _
    rw [if_neg hc, ih hcs]
    have : cs.reverse ++ (c :: acc) = (c :: cs).reverse ++ acc := by simp
    rw [this]

theorem scanLines_split (l rest : List Char) (h : '\n' ∉ l) :
    scanLines (l ++ '\n' :: rest) = dropCR l :: scanLines rest := by
  show scanLinesAux (l ++ '\n' :: rest) [] = _
  rw [scanLinesAux_chunk l h]
  simp [scanLinesAux, scanLines]

theorem scanLines_no_newline (l : List Char) (h : '\n' ∉ l) :
    scanLines l = if l.isEmpty then [] else [dropCR l] := by
  have h0 : scanLinesAux (l ++ []) [] = scanLinesAux [] (l.reverse ++ []) :=
    scanLinesAux_chunk l h [] []
  rw [List.append_nil] at h0
  show scanLinesAux l [] = _
  rw [h0]
  show (if (l.reverse ++ []).isEmpty then [] else [dropCR (l.reverse ++ []).reverse]) = _
  simp [List.isEmpty_iff]

/-! ## Parser lemmas -/

theorem buildAux_of_ne (ls : List String) (t : String) (ht : ¬(t = "")) (d : String) :
    buildAux ls t d = (t, d ++ joinNL ls) := by
  induction ls generalizing d with
  | nil => simp [buildAux, joinNL, strAppendEmpty]
  | cons l ls ih =>
    show (if t = "" then buildAux ls l d else buildAux ls t (d ++ l ++ "\n")) = _
    rw [if_neg ht, ih]
    show (t, d ++ l ++ "\n" ++ joinNL ls) = (t, d ++ (l ++ "\n" ++ joinNL ls))
    simp [strAppendAssoc]

theorem buildAux_blanks (bs : List String) (hb : ∀ b ∈ bs, b = "") (ls : List String)
    (d : String) : buildAux (bs ++ ls) "" d = buildAux ls "" d := by
  induction bs with
  | nil => rfl
  | cons b bs ih =>
    have hb1 : b = "" := hb b (List.mem_cons_self b bs)
    have hbs : ∀ x ∈ bs, x = "" := fun x hx => hb x (List.mem_cons_of_mem b hx)
    subst hb1
    show (if ("" : String) = "" then buildAux (bs ++ ls) "" d
          else buildAux (bs ++ ls) "" (d ++ "" ++ "\n")) = _
    rw [if_pos rfl, ih hbs]

theorem buildAux_all_blank (ls : List String) (hb : ∀ b ∈ ls, b = "") :
    buildAux ls "" "" = ("", "") := by
  have h := buildAux_blanks ls hb [] ""
  rw [List.append_nil] at h
  exact h

/-! ## readStdin normalization -/

theorem readStdin_norm (ps : List (List Char × Bool)) (fin : List Char)
    (hps : ∀ p ∈ ps, '\n' ∉ p.1 ∧ p.1.getLast? ≠ some '\r') (hfin : '\n' ∉ fin) :
    readStdin (mkInputLines ps fin) =
      (ps.map (fun p => p.1 ++ ['\n'])).flatten ++
        (if fin.isEmpty then [] else dropCR fin ++ ['\n']) := by
  induction ps with
  | nil =>
    show readStdin fin = _
    rw [readStdin, scanLines_no_newline fin hfin]
    by_cases hf : fin.isEmpty
    · rw [if_pos hf, if_pos hf]; rfl
    · rw [if_neg hf, if_neg hf]; simp
  | cons p ps ih =>
    obtain ⟨l, crlf⟩ := p
    have hl : '\n' ∉ l := (hps (l, crlf) (List.mem_cons_self _ _)).1
    have hcr : l.getLast? ≠ some '\r' := (hps (l, crlf) (List.mem_cons_self _ _)).2
    have hps' : ∀ p ∈ ps, '\n' ∉ p.1 ∧ p.1.getLast? ≠ some '\r' :=
      fun p hp => hps p (List.mem_cons_of_mem _ hp)
    cases crlf with
    | true =>
      have harr : mkInputLines ((l, true) :: ps) fin =
          (l ++ ['\r']) ++ '\n' :: mkInputLines ps fin := by
        show l ++ ['\r', '\n'] ++ mkInputLines ps fin = _
        simp
      have hl' : '\n' ∉ l ++ ['\r'] := by
        intro hm
        rcases List.mem_append.1 hm with hm | hm
        · exact hl hm
        · simp at hm
      rw [harr, readStdin, scanLines_split _ _ hl', dropCR_concat]
      show (l ++ ['\n']) ++ ((scanLines (mkInputLines ps fin)).map
        (fun t => t ++ ['\n'])).flatten = _
      rw [show ((scanLines (mkInputLines ps fin)).map
        (fun t => t ++ ['\n'])).flatten = readStdin (mkInputLines ps fin) from rfl]
      rw [ih hps']
      simp
    | false =>
      have harr : mkInputLines ((l, false) :: ps) fin = l ++ '\n' :: mkInputLines ps fin := by
        show l ++ ['\n'] ++ mkInputLines ps fin = _
        simp
      rw [harr, readStdin, scanLines_split _ _ hl, dropCR_of_ne l hcr]
      show (l ++ ['\n']) ++ ((scanLines (mkInputLines ps fin)).map
        (fun t => t ++ ['\n'])).flatten = _
      rw [show ((scanLines (mkInputLines ps fin)).map
        (fun t => t ++ ['\n'])).flatten = readStdin (mkInputLines ps fin) from rfl]
      rw [ih hps']
      simp

/-! ## Success runs end with the browse URL -/

theorem runReassign_success (cfg : Config) (env : Env) (api : Api) (args : List String) :
    (runReassign cfg env api args).exitCode = 0 →
    ∃ key, (runReassign cfg env api args).calls.getLast?.bind (keyOfCall api) = some key ∧
      (runReassign cfg env api args).output.getLast? = some (ConstructIssueURL key cfg.baseURL) := by
  unfold runReassign assignCall readStdinR
  split
  · split
    · split
      · intro h; simp at h
      · split
        · intro h; simp at h
        · intro _
          exact ⟨_, rfl, rfl⟩
    · intro h; simp at h
  · split
    · split
      · intro h; simp at h
      · intro _
        exact ⟨_, rfl, rfl⟩
    · intro h; simp at h

theorem runLabel_success (cfg : Config) (env : Env) (api : Api) (args : List String) :
    (runLabel cfg env api args).exitCode = 0 →
    ∃ key, (runLabel cfg env api args).calls.getLast?.bind (keyOfCall api) = some key ∧
      (runLabel cfg env api args).output.getLast? = some (ConstructIssueURL key cfg.baseURL) := by
  obtain ⟨piped, stdin, ed, fl⟩ := env
  obtain ⟨cr, gr, ur, sr, ar, lr⟩ := api
  cases piped with
  | false =>
    rcases args with _ | ⟨a0, _ | ⟨a1, _ | ⟨a2, _ | ⟨a3, rest⟩⟩⟩⟩
    · intro h; simp [runLabel] at h
    · intro h; simp [runLabel] at h
    · intro h; simp [runLabel] at h
    · intro h; simp [runLabel] at h
    · cases lr with
      | error e => intro h; simp [runLabel, labelCall] at h
      | ok u => intro _; exact ⟨a2, rfl, rfl⟩
  | true =>
    cases stdin with
    | error e => intro h; simp [runLabel, withOutputPre, readStdinR] at h
    | ok content =>
      cases lr with
      | error e => intro h; simp [runLabel, withOutputPre, readStdinR, labelCall] at h
      | ok u =>
        intro _
        refine ⟨StripBaseURL (String.mk (readStdin content)) cfg.baseURL, rfl, ?_⟩
        show (((if args.length < 3 then ["Usage: jiwa label <label> <label> ..."] else []) ++
            [StripBaseURL (String.mk (readStdin content)) cfg.baseURL,
             ConstructIssueURL (StripBaseURL (String.mk (readStdin content)) cfg.baseURL)
               cfg.baseURL]).getLast? = _)
        rw [List.getLast?_append_cons]
        rfl

theorem runEdit_success (cfg : Config) (env : Env) (api : Api) (argsRest : List String) :
    (runEdit cfg env api argsRest).exitCode = 0 →
    ∃ key, (runEdit cfg env api argsRest).calls.getLast?.bind (keyOfCall api) = some key ∧
      (runEdit cfg env api argsRest).output.getLast? = some (ConstructIssueURL key cfg.baseURL) := by
  obtain ⟨piped, stdin, ed, fl⟩ := env
  obtain ⟨cr, gr, ur, sr, ar, lr⟩ := api
  rcases argsRest with _ | ⟨issueID, _ | ⟨b, rest⟩⟩
  · intro h; simp [runEdit] at h
  · cases gr with
    | error e => intro h; simp [runEdit] at h
    | ok g =>
      cases ed with
      | error e => intro h; simp [runEdit, CreateIssueSummaryDescription] at h
      | ok lines =>
        by_cases ht : (buildAux lines "" "").1 = ""
        · intro h
          simp [runEdit, CreateIssueSummaryDescription, CreateIssueSummaryDescriptionFromLines,
            BuildSummaryAndDescriptionFromScanner, ht] at h
        · cases ur with
          | error e =>
            intro h
            simp [runEdit, CreateIssueSummaryDescription, CreateIssueSummaryDescriptionFromLines,
              BuildSummaryAndDescriptionFromScanner, ht] at h
          | ok u =>
            intro _
            simp only [runEdit, CreateIssueSummaryDescription,
              CreateIssueSummaryDescriptionFromLines, BuildSummaryAndDescriptionFromScanner]
            rw [if_neg ht]
            exact ⟨issueID, rfl, rfl⟩
  · intro h; simp [runEdit] at h

theorem runCreate_success (cfg : Config) (env : Env) (api : Api) (argsRest : List String) :
    (runCreate cfg env api argsRest).exitCode = 0 →
    ∃ key, (runCreate cfg env api argsRest).calls.getLast?.bind (keyOfCall api) = some key ∧
      (runCreate cfg env api argsRest).output.getLast? = some (ConstructIssueURL key cfg.baseURL) := by
  obtain ⟨piped, stdin, ed, fl⟩ := env
  obtain ⟨cr, gr, ur, sr, ar, lr⟩ := api
  rcases hpf : parseFlags ["project", "in"] argsRest [] with msg | ⟨fs, rem⟩
  · intro h; simp [runCreate, hpf] at h
  · by_cases hpd : flagVal fs "project" "" = "" ∧ cfg.defaultProject = ""
    · intro h; simp [runCreate, hpf, if_pos hpd] at h
    · by_cases hin : flagVal fs "in" "" = ""
      · cases ed with
        | error e =>
          intro h
          simp [runCreate, hpf, hpd, hin, CreateIssueSummaryDescription] at h
        | ok lines =>
          by_cases ht : (buildAux lines "" "").1 = ""
          · intro h
            simp [runCreate, hpf, hpd, hin, CreateIssueSummaryDescription,
              CreateIssueSummaryDescriptionFromLines, BuildSummaryAndDescriptionFromScanner,
              ht] at h
          · cases cr with
            | error e =>
              intro h
              simp [runCreate, hpf, hpd, hin, CreateIssueSummaryDescription,
                CreateIssueSummaryDescriptionFromLines, BuildSummaryAndDescriptionFromScanner,
                ht, createCall] at h
            | ok key =>
              intro _
              simp only [runCreate, hpf, CreateIssueSummaryDescription,
                CreateIssueSummaryDescriptionFromLines, BuildSummaryAndDescriptionFromScanner]
              rw [if_neg hpd, if_pos hin, if_neg ht]
              exact ⟨key, rfl, rfl⟩
      · by_cases hdash : flagVal fs "in" "" = "-"
        · cases stdin with
          | error e =>
            intro h
            simp [runCreate, hpf, hpd, hin, hdash, readStdinR] at h
          | ok content =>
            cases cr with
            | error e =>
              intro h
              simp [runCreate, hpf, hpd, hin, hdash, readStdinR,
                BuildSummaryAndDescriptionFromScanner, createCall, withOutputPre] at h
            | ok key =>
              intro _
              simp only [runCreate, hpf, readStdinR, BuildSummaryAndDescriptionFromScanner]
              rw [if_neg hpd, if_neg hin, if_pos hdash]
              exact ⟨key, rfl, rfl⟩
        · cases fl with
          | error e =>
            intro h
            simp [runCreate, hpf, hpd, hin, hdash] at h
          | ok fBytes =>
            cases cr with
            | error e =>
              intro h
              simp [runCreate, hpf, hpd, hin, hdash,
                BuildSummaryAndDescriptionFromScanner, createCall] at h
            | ok key =>
              intro _
              simp only [runCreate, hpf, BuildSummaryAndDescriptionFromScanner]
              rw [if_neg hpd, if_neg hin, if_neg hdash]
              exact ⟨key, rfl, rfl⟩

/-! ## Claim theorems -/

/-- C1: the claimed round trip fails in the code: StripBaseURL passes its
arguments to TrimPrefix swapped, so stripping the base from the full
browse URL of key ABC-1 returns the base browse URL itself, not the key. -/
theorem stripBaseURL_swaps_arguments :
    StripBaseURL (ConstructIssueURL "ABC-1" "https://example.com") "https://example.com" =
      "https://example.com/browse/" ∧
    ("https://example.com/browse/" : String) ≠ "ABC-1" :=
  ⟨rfl, by decide⟩

/-- C3: the list, move and mv cases of the dispatcher have empty bodies (Go
switch cases do not fall through), so those subcommands perform no API
call, print nothing, and exit 0, while the alias spelling ls does invoke
the Search operation. -/
theorem list_and_move_subcommands_do_nothing :
    ∀ (cfg : Config) (env : Env) (api : Api),
      runMain cfg env api ["jiwa", "list"] = ⟨[], [], 0⟩ ∧
      runMain cfg env api ["jiwa", "move"] = ⟨[], [], 0⟩ ∧
      runMain cfg env api ["jiwa", "mv"] = ⟨[], [], 0⟩ ∧
      (runMain cfg env api ["jiwa", "ls"]).calls =
        [APICall.search ("project=" ++ cfg.defaultProject ++ " AND status=\"to do\" ")] := by
  intro cfg env api
  have hjql : ∀ dp : String,
      "project=" ++ dp ++ " AND status=\"" ++ "to do" ++ "\" " ++ "" =
        "project=" ++ dp ++ " AND status=\"to do\" " := by
    intro dp
    rw [strAppendEmpty, strAppendAssoc, strAppendAssoc]
    rfl
  refine ⟨rfl, rfl, rfl, ?_⟩
  obtain ⟨cr, gr, ur, sr, ar, lr⟩ := api
  cases sr with
  | error e =>
    show [APICall.search ("project=" ++ cfg.defaultProject ++
      " AND status=\"" ++ "to do" ++ "\" " ++ "")] = _
    rw [hjql]
  | ok issues =>
    show [APICall.search ("project=" ++ cfg.defaultProject ++
      " AND status=\"" ++ "to do" ++ "\" " ++ "")] = _
    rw [hjql]

/-- C5: with a terminal on stdin, jiwa label ABC-1 urgent calls
LabelIssue with the label list os.Args from index 2 on, which includes
the issue ID itself, not only the given labels. -/
theorem label_passes_issue_id_as_label :
    ∀ (cfg : Config) (stdin fl : Except String (List Char)) (ed : Except String (List String))
      (cr : Except String String) (gr : Except String (String × String)) (ur : Except String Unit)
      (sr : Except String (List SearchIssue)) (ar lr : Except String Unit),
      (runMain cfg ⟨false, stdin, ed, fl⟩ ⟨cr, gr, ur, sr, ar, lr⟩
          ["jiwa", "label", "ABC-1", "urgent"]).calls =
        [APICall.labelIssue "ABC-1" ["ABC-1", "urgent"]] := by
  intro cfg stdin fl ed cr gr ur sr ar lr
  cases lr <;> rfl

/-- C6: jiwa label with piped stdin and too few arguments prints its
usage line but does not exit: it goes on to read stdin, performs the
LabelIssue API call with an empty label list (and, because of the
swapped TrimPrefix arguments, a mangled ticket ID), and exits 0. -/
theorem label_piped_missing_exit :
    runMain ⟨"https://example.com", "2", "", "u", "p", "PROJ"⟩
        ⟨true, .ok "ABC-1".data, .ok [], .ok []⟩
        ⟨.ok "AB-1", .ok ("s", "d"), .ok (), .ok [], .ok (), .ok ()⟩
        ["jiwa", "label"] =
      ⟨[APICall.labelIssue "https://example.com/browse/" []],
       ["Usage: jiwa label <label> <label> ...", "https://example.com/browse/",
        "https://example.com/browse/https://example.com/browse/"], 0⟩ := rfl

/-- C7: ConstructIssueURL concatenates the base URL, the literal
/browse/ segment, and the issue key, for every key and base. -/
theorem constructIssueURL_spec :
    ∀ (issueKey baseURL : String),
      ConstructIssueURL issueKey baseURL = baseURL ++ "/browse/" ++ issueKey := by
  intro k b
  cases k with
  | mk kd =>
    cases b with
    | mk bd =>
      show String.mk (bd ++ ('/' :: 'b' :: 'r' :: 'o' :: 'w' :: 's' :: 'e' :: '/' :: (kd ++ []))) =
        String.mk ((bd ++ ('/' :: 'b' :: 'r' :: 'o' :: 'w' :: 's' :: 'e' :: '/' :: [])) ++ kd)
      refine congrArg String.mk ?_
      rw [List.append_nil, List.append_assoc]
      rfl

/-- C8: a set JIWA_USERNAME environment variable overrides the
configured username and a set JIWA_PASSWORD overrides the configured
password; an unset variable keeps the value from the file. -/
theorem env_overrides_config_credentials :
    ∀ (c : Config) (u p : String) (eu ep : Option String),
      (applyEnvOverrides c (some u) ep).username = u ∧
      (applyEnvOverrides c none ep).username = c.username ∧
      (applyEnvOverrides c eu (some p)).password = p ∧
      (applyEnvOverrides c eu none).password = c.password := by
  intro c u p eu ep
  refine ⟨?_, ?_, ?_, ?_⟩
  · cases ep <;> rfl
  · cases ep <;> rfl
  · cases eu <;> rfl
  · cases eu <;> rfl

/-- C2 counterexample: on an empty line sequence the scanner-level
parser returns ok with an empty summary and no error, and the stdin
input path of create proceeds all the way to the CreateIssue API call
with an empty summary and exits 0. -/
theorem scanner_empty_input_no_error_cex :
    BuildSummaryAndDescriptionFromScanner ([] : List String) = Except.ok ("", "") ∧
    runMain ⟨"https://example.com", "2", "", "u", "p", "PROJ"⟩ ⟨true, .ok [], .ok [], .ok []⟩
        ⟨.ok "AB-1", .ok ("s", "d"), .ok (), .ok [], .ok (), .ok ()⟩
        ["jiwa", "create", "-in", "-"] =
      ⟨[APICall.createIssue "PROJ" "" "" [] "Task"], ["", "https://example.com/browse/AB-1"], 0⟩ :=
  ⟨rfl, rfl⟩

/-- C2 amended: only the editor-buffer path rejects an empty summary:
CreateIssueSummaryDescription returns the empty-summary error whenever
the buffer produces no line or only blank lines, while the scanner
parser used directly by the stdin and file paths returns no error. -/
theorem empty_summary_error_only_in_editor_path :
    ∀ (lines : List String), (∀ l ∈ lines, l = "") →
      CreateIssueSummaryDescriptionFromLines lines =
        Except.error "the summary line needs to be filled at least" := by
  intro lines h
  unfold CreateIssueSummaryDescriptionFromLines BuildSummaryAndDescriptionFromScanner
  rw [buildAux_all_blank lines h]
  rfl

/-- C2 witness: the empty buffer triggers the editor-path error. -/
theorem empty_summary_error_witness :
    CreateIssueSummaryDescriptionFromLines [] =
      Except.error "the summary line needs to be filled at least" :=
  empty_summary_error_only_in_editor_path [] (by decide)

/-- C4 counterexample: for the two-line input the description carries a
trailing newline, so it is not the bare join the claim states. -/
theorem description_trailing_newline_cex :
    BuildSummaryAndDescriptionFromScanner ["s", "d1"] = Except.ok ("s", "d1\n") ∧
    ("d1\n" : String) ≠ "d1" :=
  ⟨rfl, by decide⟩

/-- C4 amended: the summary is the first non-blank line and the
description is the remaining lines each terminated by one newline (so a
single-line input has an empty description and a nonempty rest ends in
a newline). -/
theorem parser_first_nonblank_and_joined_rest :
    ∀ (bs : List String), (∀ b ∈ bs, b = "") → ∀ (s : String), ¬(s = "") →
      ∀ (rest : List String),
      BuildSummaryAndDescriptionFromScanner (bs ++ s :: rest) = Except.ok (s, joinNL rest) := by
  intro bs hb s hs rest
  unfold BuildSummaryAndDescriptionFromScanner
  rw [buildAux_blanks bs hb]
  show Except.ok (buildAux rest s "") = _
  rw [buildAux_of_ne rest s hs, strEmptyAppend]

/-- C4 witness: a blank line, then the summary line, then one body line. -/
theorem parser_first_nonblank_witness :
    BuildSummaryAndDescriptionFromScanner ["", "shoe", "d"] = Except.ok ("shoe", "d\n") :=
  parser_first_nonblank_and_joined_rest [""] (by decide) "shoe" (by decide) ["d"]

/-- C9: readStdin returns the lines of the input each terminated by exactly
one newline: carriage-return line endings are replaced and a missing
final newline is added; in particular a newline-free issue key, as piped
to reassign or label, comes back with exactly one trailing newline. -/
theorem readStdin_normalizes_lines :
    (∀ (ps : List (List Char × Bool)) (fin : List Char),
        (∀ p ∈ ps, '\n' ∉ p.1 ∧ p.1.getLast? ≠ some '\r') → '\n' ∉ fin →
        readStdin (mkInputLines ps fin) =
          (ps.map (fun p => p.1 ++ ['\n'])).flatten ++
            (if fin.isEmpty then [] else dropCR fin ++ ['\n'])) ∧
    (∀ key : List Char, '\n' ∉ key → key ≠ [] → key.getLast? ≠ some '\r' →
        readStdin key = key ++ ['\n']) := by
  refine ⟨readStdin_norm, ?_⟩
  intro key h1 h2 h3
  have h := readStdin_norm [] key (by intro p hp; cases hp) h1
  rw [show mkInputLines [] key = key from rfl] at h
  rw [h, dropCR_of_ne key h3]
  simp [List.isEmpty_iff, h2]

/-- C9 witness: a CRLF-terminated line followed by an unterminated
chunk, and a bare newline-free key. -/
theorem readStdin_normalizes_witness :
    readStdin (mkInputLines [(['A', 'B'], true)] ['C']) = ['A', 'B', '\n', 'C', '\n'] ∧
    readStdin ['X', 'Y'] = ['X', 'Y', '\n'] := by
  constructor
  · exact readStdin_normalizes_lines.1 [(['A', 'B'], true)] ['C'] (by decide) (by decide)
  · exact readStdin_normalizes_lines.2 ['X', 'Y'] (by decide) (by decide) (by decide)

/-- C10: every run of create, edit, reassign or label that exits 0 ends
its standard output with the browse URL of the issue the run created or
affected: the key of the last API call performed. -/
theorem success_final_output_is_browse_url :
    ∀ (cfg : Config) (env : Env) (api : Api) (prog cmd : String) (argsRest : List String),
      cmd = "create" ∨ cmd = "edit" ∨ cmd = "reassign" ∨ cmd = "label" →
      (runMain cfg env api (prog :: cmd :: argsRest)).exitCode = 0 →
      ∃ key,
        (runMain cfg env api (prog :: cmd :: argsRest)).calls.getLast?.bind (keyOfCall api) =
          some key ∧
        (runMain cfg env api (prog :: cmd :: argsRest)).output.getLast? =
          some (ConstructIssueURL key cfg.baseURL) := by
  intro cfg env api prog cmd argsRest hcmd
  rcases hcmd with h | h | h | h <;> subst h
  · exact runCreate_success cfg env api argsRest
  · exact runEdit_success cfg env api argsRest
  · exact runReassign_success cfg env api (prog :: "reassign" :: argsRest)
  · exact runLabel_success cfg env api (prog :: "label" :: argsRest)

/-- C10 witness: a successful create through the editor path. -/
theorem success_final_output_witness :
    ∃ key,
      (runMain sampleCfg sampleEnv sampleApi ["jiwa", "create"]).calls.getLast?.bind
        (keyOfCall sampleApi) = some key ∧
      (runMain sampleCfg sampleEnv sampleApi ["jiwa", "create"]).output.getLast? =
        some (ConstructIssueURL key sampleCfg.baseURL) :=
  success_final_output_is_browse_url sampleCfg sampleEnv sampleApi "jiwa" "create" []
    (Or.inl rfl) rfl
